import Mathlib

/-!
Verification development for the UICourseAI course-grade chatbot.

This file gives a shallow embedding of the intent-resolution and
query-shaping core of the repository:

* `project/chatbot/actions.py` — the query compiler / ranking engine
  (`_base_query`, `_semester_year_sql`, `_apply_filters`, `_order_clause`,
  `rank_professors`, `details_section`);
* `project/chatbot/intent.py` — the rule-based intent parser;
* `project/chatbot/llm_intent.py` — the normalization step of the
  model-backed parser (`_normalize_intent_dict`).

Modelling conventions:

* SQL execution over the parquet warehouse is modelled as list processing
  over an explicit list of rows; a missing warehouse file is `none`.
* SQL DOUBLE arithmetic on the derived rates is modelled with exact
  rationals (`ℚ`); the comparisons appearing in the claims are far from
  any floating-point precision boundary.
* The `SELECT` projection is modelled by returning the full row; the
  derived columns `A_rate`/`DFW_rate` are functions of the row.
* Python logging is modelled by a `Bool` component of each operation's
  result: `true` exactly when the operation executed a `log.warning` call.
* Characters are treated as code points; the ASCII case maps used by the
  source (`str.lower`, `str.upper`, SQL `LOWER`/`UPPER`) are modelled by
  `lowerChar`/`upperChar`.
-/

namespace UICourseAI

/-! ### Character and string helpers -/

/-- ASCII lower-casing of one character (model of Python and SQL lowering
on the ASCII inputs this system manipulates); code points 65–90 are the
letters `A`–`Z`. -/
def lowerChar (c : Char) : Char :=
  if 65 ≤ c.toNat ∧ c.toNat ≤ 90 then Char.ofNat (c.toNat + 32) else c

/-- ASCII upper-casing of one character; code points 97–122 are the
letters `a`–`z`. -/
def upperChar (c : Char) : Char :=
  if 97 ≤ c.toNat ∧ c.toNat ≤ 122 then Char.ofNat (c.toNat - 32) else c

/-- Lower-case a string character by character. -/
def lowerStr (s : String) : String := String.mk (s.data.map lowerChar)

/-- Upper-case a string character by character. -/
def upperStr (s : String) : String := String.mk (s.data.map upperChar)

/-- Decide whether `c` is an ASCII digit (code points 48–57). -/
def isDigitChar (c : Char) : Bool := decide (48 ≤ c.toNat) && decide (c.toNat ≤ 57)

/-- Decide whether `pat` is a leading segment of `l`. -/
def prefixOfB : List Char → List Char → Bool
  | [], _ => true
  | _ :: _, [] => false
  | a :: as, b :: bs => a == b && prefixOfB as bs

/-- Decide whether `pat` occurs contiguously inside `l` (Python `in`,
SQL `LIKE '%pat%'`). -/
def containsSub (pat : List Char) : List Char → Bool
  | [] => prefixOfB pat []
  | l@(_ :: rest) => prefixOfB pat l || containsSub pat rest

/-- String-level wrapper for `containsSub`: does `hay` contain `pat`? -/
def strContains (hay pat : String) : Bool := containsSub pat.data hay.data

/-- Decide whether `l` ends with `pat`. -/
def endsWith (l pat : List Char) : Bool := prefixOfB pat.reverse l.reverse

/-- Numeric value of a list of ASCII digits, most significant first. -/
def digitsToNat : List Char → Nat
  | [] => 0
  | c :: cs => digitsToNat cs + (c.toNat - 48) * 10 ^ cs.length

/-- Parse an optionally-signed run of ASCII digits as an integer
(model of DuckDB `TRY_CAST(· AS INTEGER)` and of Python `int` on the
strings this system feeds it); anything else parses to `none`. -/
def parseInt (l : List Char) : Option Int :=
  match l with
  | [] => none
  | '-' :: rest =>
      if rest ≠ [] ∧ rest.all isDigitChar then some (-(digitsToNat rest : Int)) else none
  | _ => if l.all isDigitChar then some (digitsToNat l : Int) else none

/-! ### Warehouse rows (`GradeSection`) -/

/-- One warehouse row: a per-section grade distribution, exactly the
columns read by `_base_query`.  `total_students` is nullable in the
store, hence `Option`. -/
structure Row where
  subject : String
  class_num : String
  class_title : String
  instructor : String
  semester : String
  total_students : Option Int
  A : Int
  B : Int
  C : Int
  D : Int
  F : Int
  withdrawn : Int
deriving DecidableEq

/-- Derived column `A_rate` of `_base_query`:
`CASE WHEN total_students > 0 THEN (A / total_students) * 100 ELSE 0 END`. -/
def A_rate (r : Row) : ℚ :=
  match r.total_students with
  | some t => if 0 < t then ((r.A : ℚ) / (t : ℚ)) * 100 else 0
  | none => 0

/-- Derived column `DFW_rate` of `_base_query`:
`CASE WHEN total_students > 0 THEN ((D + F + W) / total_students) * 100 ELSE 0 END`. -/
def DFW_rate (r : Row) : ℚ :=
  match r.total_students with
  | some t => if 0 < t then (((r.D + r.F + r.withdrawn : Int) : ℚ) / (t : ℚ)) * 100 else 0
  | none => 0

/-- The `WHERE` clause of `_base_query`:
`total_students IS NOT NULL AND total_students > 0`. -/
def baseFilter (r : Row) : Bool :=
  match r.total_students with
  | some t => decide (0 < t)
  | none => false

/-- Model of `_base_query` applied to a warehouse: the rows surviving its
`WHERE` clause (the projection is carried by `A_rate`/`DFW_rate`). -/
def base_query (wh : List Row) : List Row := wh.filter baseFilter

/-- Model of `_semester_year_sql`: a length-4 semester code whose last two
characters cast to an integer decodes to `2000 +` that integer, else NULL.
`SUBSTR(semester, 3, 2)` is the 1-indexed two-character slice starting at
position 3. -/
def semester_year (s : String) : Option Int :=
  if s.length = 4 then (parseInt ((s.data.drop 2).take 2)).map (fun n => 2000 + n)
  else none

/-! ### Intents and configuration -/

/-- The canonical intent, the dict shape shared by both parsers and
consumed as `params` by the query compiler. -/
structure Intent where
  polarity : String := "easy"
  subject : Option String := none
  class_num : Option String := none
  keywords : List String := []
  recent : Bool := false
  level : Option Int := none
  instructor_like : Option String := none
  explain : Bool := false
  details : Bool := false
deriving DecidableEq

/-- `min_enrollment` configuration default (`app.yaml` is absent from the
repository, so the coded default `8` applies). -/
def MIN_ENROLLMENT : Int := 8

/-- `default_recency_years` configuration default. -/
def DEFAULT_RECENCY_YEARS : Int := 5

/-- Python truthiness of an optional string: `params.get(k)` guards each
clause with `if params.get(k):`, so an absent key and an empty string both
disable the clause. -/
def truthyStr : Option String → Option String
  | some s => if s = "" then none else some s
  | none => none

/-- Python truthiness of an optional integer (`0` is falsy). -/
def truthyInt : Option Int → Option Int
  | some n => if n = 0 then none else some n
  | none => none

/-! ### Filter clauses (`_apply_filters`)

Each SQL `WHERE` clause string built by `_apply_filters` becomes a `Bool`
predicate on a row; a clause that the source does not emit for the given
params is modelled as constantly `true`. -/

/-- `UPPER(subject) = '{params['subject'].upper()}'`, emitted iff
`params.get("subject")` is truthy. -/
def subject_clause (p : Intent) (r : Row) : Bool :=
  match truthyStr p.subject with
  | some s => upperStr r.subject == upperStr s
  | none => true

/-- `class_num = '{params['class_num']}'`, emitted iff truthy. -/
def class_num_clause (p : Intent) (r : Row) : Bool :=
  match truthyStr p.class_num with
  | some c => r.class_num == c
  | none => true

/-- `TRY_CAST(class_num AS INTEGER) BETWEEN lvl AND lvl + 99`, emitted iff
`params.get("level")` is truthy; a non-numeric course number gives a NULL
cast, which fails the comparison. -/
def level_clause (p : Intent) (r : Row) : Bool :=
  match truthyInt p.level with
  | some lvl =>
      match parseInt r.class_num.data with
      | some n => decide (lvl ≤ n ∧ n ≤ lvl + 99)
      | none => false
  | none => true

/-- The `LIKE` pattern bodies attached to one requested keyword tag, or
`none` for a tag the compiler does not recognize (it contributes no
clause).  Mirrors the `if/elif` chain over `k_low`. -/
def keyword_tests (k : String) : Option (List String) :=
  let kl := lowerStr k
  if kl = "ml" then some ["machine", "learning", "ai"]
  else if kl = "ai" then some ["artificial", "intelligence", "ai"]
  else if kl = "data" then some ["data"]
  else if kl = "nlp" ∨ kl = "language" then some ["language", "nlp", "text"]
  else if kl = "query" ∨ kl = "retrieval" ∨ kl = "ir" then
    some ["query", "retrieval", "information"]
  else none

/-- The combined disjunctive keyword clause: emitted iff at least one
requested keyword is recognized, and then satisfied iff some recognized
keyword has some pattern occurring in `LOWER(class_title)`. -/
def keywords_clause (p : Intent) (r : Row) : Bool :=
  let pats := p.keywords.filterMap keyword_tests
  if pats = [] then true
  else pats.any (fun l => l.any (fun pat => strContains (lowerStr r.class_title) pat))

/-- `LOWER(instructor) LIKE '%{inst.lower()}%'`, emitted iff truthy (the
single-quote escaping of the source does not change the match). -/
def instructor_clause (p : Intent) (r : Row) : Bool :=
  match truthyStr p.instructor_like with
  | some i => strContains (lowerStr r.instructor) (lowerStr i)
  | none => true

/-- `total_students >= MIN_ENROLLMENT`, emitted iff the user did NOT force
a specific class_num (`if not params.get("class_num")`). -/
def min_enrollment_clause (p : Intent) (r : Row) : Bool :=
  match truthyStr p.class_num with
  | some _ => true
  | none =>
      match r.total_students with
      | some t => decide (MIN_ENROLLMENT ≤ t)
      | none => false

/-- `{_semester_year_sql()} >= year_now - DEFAULT_RECENCY_YEARS`, emitted
iff `params.get("recent")`; a NULL decoded year fails the comparison. -/
def recency_clause (p : Intent) (now : Int) (r : Row) : Bool :=
  if p.recent then
    match semester_year r.semester with
    | some y => decide (now - DEFAULT_RECENCY_YEARS ≤ y)
    | none => false
  else true

/-- Model of `_apply_filters`: all emitted clauses are conjoined onto the
base query's `WHERE`. -/
def apply_filters (p : Intent) (now : Int) (r : Row) : Bool :=
  subject_clause p r && class_num_clause p r && level_clause p r &&
    keywords_clause p r && instructor_clause p r && min_enrollment_clause p r &&
    recency_clause p now r

/-! ### Ordering (`_order_clause`)

`ORDER BY k₁ DIR₁, k₂ DIR₂, ...` is modelled by sorting ascending on a
lexicographic key: a `DESC` numeric key contributes its negation, and the
nullable decoded-year key maps NULL to `⊤` (DuckDB's default places NULLs
last). -/

/-- Sort key for `total_students DESC` (NULL last). -/
def totKey (r : Row) : WithTop Int :=
  match r.total_students with
  | some t => ((-t : Int) : WithTop Int)
  | none => ⊤

/-- Sort key for `{_semester_year_sql()} DESC` (NULL last). -/
def yearKey (r : Row) : WithTop Int :=
  match semester_year r.semester with
  | some y => ((-y : Int) : WithTop Int)
  | none => ⊤

/-- Key of `ORDER BY A_rate DESC, DFW_rate ASC, total_students DESC,
year DESC` (the `easy` polarity). -/
def easyKey (r : Row) : Lex (ℚ × Lex (ℚ × Lex (WithTop Int × WithTop Int))) :=
  toLex (-(A_rate r), toLex (DFW_rate r, toLex (totKey r, yearKey r)))

/-- Key of `ORDER BY DFW_rate DESC, A_rate ASC, total_students DESC,
year DESC` (the `hard` polarity). -/
def hardKey (r : Row) : Lex (ℚ × Lex (ℚ × Lex (WithTop Int × WithTop Int))) :=
  toLex (-(DFW_rate r), toLex (A_rate r, toLex (totKey r, yearKey r)))

/-- Model of `_order_clause`: row `r` may precede row `s`.  Any polarity
other than `"hard"` uses the `easy` ordering, as in the source. -/
def order_le (pol : String) (r s : Row) : Prop :=
  if pol = "hard" then hardKey r ≤ hardKey s else easyKey r ≤ easyKey s

instance order_le_decidable (pol : String) : DecidableRel (order_le pol) := fun r s => by
  unfold order_le
  split
  · exact inferInstance
  · exact inferInstance

instance order_le_total (pol : String) : IsTotal Row (order_le pol) :=
  ⟨fun a b => by
    by_cases h : pol = "hard"
    · simp only [order_le, if_pos h]; exact le_total _ _
    · simp only [order_le, if_neg h]; exact le_total _ _⟩

instance order_le_trans (pol : String) : IsTrans Row (order_le pol) :=
  ⟨fun a b c => by
    by_cases h : pol = "hard"
    · simp only [order_le, if_pos h]; exact fun h1 h2 => le_trans h1 h2
    · simp only [order_le, if_neg h]; exact fun h1 h2 => le_trans h1 h2⟩

/-- Model of `rank_professors`.  The warehouse argument is `none` when the
parquet file does not exist.  The result pairs the returned rows with a
flag recording whether a `log.warning` was executed. -/
def rank_professors (params : Intent) (top_n : Nat) (warehouse : Option (List Row))
    (now : Int) : List Row × Bool :=
  match warehouse with
  | none => ([], true)
  | some wh =>
      let filtered := (base_query wh).filter (fun r => apply_filters params now r)
      let sorted := filtered.insertionSort (order_le params.polarity)
      (sorted.take top_n, false)

/-- The params dict that `details_section` builds and feeds to
`_apply_filters` (all other keys absent, hence falsy). -/
def details_params (subject class_num instructor_like : String) : Intent :=
  { subject := some subject, class_num := some class_num,
    instructor_like := some instructor_like }

/-- Ordering of details mode: `ORDER BY {_semester_year_sql()} DESC`. -/
def details_le (r s : Row) : Prop := yearKey r ≤ yearKey s

instance details_le_decidable : DecidableRel details_le := fun r s =>
  inferInstanceAs (Decidable (yearKey r ≤ yearKey s))

/-- Model of `details_section`: same filter pipeline, ordered by decoded
year descending, `LIMIT 20`.  On a missing warehouse it returns `[]`
without any `log.warning` call (second component `false`). -/
def details_section (subject class_num instructor_like : String)
    (warehouse : Option (List Row)) (now : Int) : List Row × Bool :=
  match warehouse with
  | none => ([], false)
  | some wh =>
      let p := details_params subject class_num instructor_like
      let filtered := (base_query wh).filter (fun r => apply_filters p now r)
      let sorted := filtered.insertionSort details_le
      (sorted.take 20, false)

/-! ### Rule-based intent parser (`chatbot/intent.py`) -/

/-- `SUBJECT_CODES` from the source. -/
def SUBJECT_CODES : List String :=
  ["CS", "MATH", "STAT", "ECE", "BIOE", "IE", "IDS", "DA", "DS"]

/-- `POLARITY_MAP` from the source, as an association list. -/
def POLARITY_MAP : List (String × String) :=
  [("easy", "easy"), ("easier", "easy"), ("lenient", "easy"), ("chill", "easy"),
   ("good", "easy"), ("hard", "hard"), ("strict", "hard"), ("tough", "hard")]

/-- `KEYWORD_SYNONYMS` from the source: family tag paired with its
synonym set. -/
def KEYWORD_SYNONYMS : List (String × List String) :=
  [("ml", ["ml", "machine", "learning", "machine-learning", "deep", "dl", "ai"]),
   ("ai", ["ai", "artificial", "intelligence"]),
   ("data", ["data", "mining", "analytics"]),
   ("nlp", ["nlp", "language", "text"]),
   ("query", ["query", "retrieval", "information-retrieval", "ir", "search"])]

/-- `RECENT_TOKENS` from the source. -/
def RECENT_TOKENS : List String := ["recent", "latest", "new", "newer"]

/-- `DETAIL_TOKENS` from the source. -/
def DETAIL_TOKENS : List String := ["details", "detail", "breakdown", "per-semester", "semester"]

/-- Character class of the tokenizer regex `[a-z0-9\-]+` (applied after
lower-casing); code point 45 is `-`. -/
def isTokChar (c : Char) : Bool :=
  isDigitChar c || (decide (97 ≤ c.toNat) && decide (c.toNat ≤ 122)) || decide (c.toNat = 45)

/-- Accumulating tokenizer core: `cur` holds the current run reversed;
non-matching characters close the run.  Implements `re.findall` of
maximal `isTokChar` runs. -/
def tokAux : List Char → List Char → List (List Char)
  | cur, [] => if cur.isEmpty then [] else [cur.reverse]
  | cur, c :: rest =>
      if isTokChar c then tokAux (c :: cur) rest
      else if cur.isEmpty then tokAux [] rest
      else cur.reverse :: tokAux [] rest

/-- Model of `_tokenize`: lowercase, then maximal `[a-z0-9-]` runs. -/
def tokenize (s : String) : List (List Char) := tokAux [] (s.data.map lowerChar)

/-- Python `str.isdigit` on a token: non-empty and all digits. -/
def token_isdigit (t : List Char) : Bool := !t.isEmpty && t.all isDigitChar

/-- `t.split("-")[0]`: the segment before the first hyphen. -/
def splitHead (t : List Char) : List Char := t.takeWhile (fun c => c != '-')

/-- The class-number candidate one token yields in `_extract_class_num`:
the token itself when purely digits, else the digit segment before the
first hyphen when the token ends in `-level` and that segment is digits. -/
def classNumTok (t : List Char) : Option (List Char) :=
  if token_isdigit t then some t
  else if endsWith t "-level".data && token_isdigit (splitHead t) then some (splitHead t)
  else none

/-- Model of `_extract_class_num`: first token yielding a candidate. -/
def extract_class_num : List (List Char) → Option (List Char)
  | [] => none
  | t :: ts =>
      match classNumTok t with
      | some v => some v
      | none => extract_class_num ts

/-- Model of `_extract_level`: first token of the form `<digits>-level`
(by the source's split test), or a purely-digit token immediately followed
by the literal token `level`. -/
def extract_level : List (List Char) → Option Int
  | [] => none
  | t :: ts =>
      if endsWith t "-level".data && token_isdigit (splitHead t) then
        some ((digitsToNat (splitHead t) : Nat) : Int)
      else if token_isdigit t && ts.head? == some "level".data then
        some ((digitsToNat t : Nat) : Int)
      else extract_level ts

/-- Model of `_extract_polarity`: first token in `POLARITY_MAP` wins. -/
def extract_polarity : List (List Char) → String
  | [] => "easy"
  | t :: ts =>
      match POLARITY_MAP.lookup (String.mk t) with
      | some p => p
      | none => extract_polarity ts

/-- Model of `_extract_subject`: first token whose uppercase form is a
known subject code. -/
def extract_subject : List (List Char) → Option String
  | [] => none
  | t :: ts =>
      let up := String.mk (t.map upperChar)
      if up ∈ SUBJECT_CODES then some up else extract_subject ts

/-- Model of `_extract_keywords`.  The source collects triggered family
tags into a Python `set` and lists it; we fix the declaration order of
`KEYWORD_SYNONYMS` (the claims treat `keywords` as a set). -/
def extract_keywords (toks : List (List Char)) : List String :=
  (KEYWORD_SYNONYMS.filter (fun kv => toks.any (fun t => String.mk t ∈ kv.2))).map (·.1)

/-- Model of `_extract_recent`. -/
def extract_recent (toks : List (List Char)) : Bool :=
  toks.any (fun t => String.mk t ∈ RECENT_TOKENS)

/-- Model of `_extract_details`. -/
def extract_details (toks : List (List Char)) : Bool :=
  toks.any (fun t => String.mk t ∈ DETAIL_TOKENS)

/-- The garbage set of `_extract_instructor_like`: recency and detail
triggers, polarity keys, all keyword synonyms, lowercased subject codes,
and the literal `level`. -/
def garbageTokens : List String :=
  RECENT_TOKENS ++ DETAIL_TOKENS ++ POLARITY_MAP.map (·.1) ++
    (KEYWORD_SYNONYMS.map (·.2)).flatten ++ SUBJECT_CODES.map lowerStr ++ ["level"]

/-- Model of `_extract_instructor_like`: the last token that is neither a
digit run nor garbage, if any. -/
def extract_instructor_like (text : String) : Option String :=
  let toks := tokenize text
  let tail := toks.filter (fun t => !token_isdigit t && String.mk t ∉ garbageTokens)
  (tail.getLast?).map String.mk

/-- Model of `parse` in `chatbot/intent.py` (the returned `to_dict()` view
is the `Intent` record itself). -/
def parse (user_text : String) : Intent :=
  let tokens := tokenize user_text
  { polarity := extract_polarity tokens
    subject := extract_subject tokens
    class_num := (extract_class_num tokens).map String.mk
    level := extract_level tokens
    keywords := extract_keywords tokens
    recent := extract_recent tokens
    details := extract_details tokens
    explain := strContains (lowerStr user_text) "--explain" ||
      strContains (lowerStr user_text) "-explain"
    instructor_like :=
      if extract_details tokens || tokens.contains "details".data then
        extract_instructor_like user_text
      else none }

/-! ### Model-backed parser normalization (`chatbot/llm_intent.py`)

Only `_normalize_intent_dict` is deterministic core logic; the transport
(`parse_with_llm`) is an external collaborator.  The raw payload decoded
from the model's JSON is modelled by `JVal`; Python `float` payloads are
outside the model (no claim touches them; in every normalization branch
they behave like the other non-qualifying constructors). -/

/-- JSON-ish Python values that can appear in the raw payload dict. -/
inductive JVal where
  | jnull : JVal
  | jbool : Bool → JVal
  | jint : Int → JVal
  | jstr : String → JVal
  | jlist : List JVal → JVal

/-- Python truthiness of a payload value (`bool(v)`). -/
def truthy : JVal → Bool
  | .jnull => false
  | .jbool b => b
  | .jint n => n != 0
  | .jstr s => s != ""
  | .jlist l => !l.isEmpty

/-- The ASCII single-quote character, used by Python list reprs. -/
def quoteChar : Char := Char.ofNat 39

mutual

/-- Python `repr` of a payload value (as it appears inside `str` of a
containing list). -/
def pyRepr : JVal → String
  | .jnull => "None"
  | .jbool true => "True"
  | .jbool false => "False"
  | .jint n => toString n
  | .jstr s => String.singleton quoteChar ++ s ++ String.singleton quoteChar
  | .jlist l => "[" ++ pyReprList l ++ "]"

/-- Comma-separated reprs of a list's elements. -/
def pyReprList : List JVal → String
  | [] => ""
  | [v] => pyRepr v
  | v :: rest => pyRepr v ++ ", " ++ pyReprList rest

end

/-- Python `str` of a payload value. -/
def pyStr : JVal → String
  | .jstr s => s
  | .jlist l => "[" ++ pyReprList l ++ "]"
  | v => pyRepr v

/-- The raw payload dict (`Dict[str, Any]` after `json.loads`). -/
def Payload := List (String × JVal)

/-- `data.get(k)`: the stored value, or Python `None` when absent. -/
def pget (d : Payload) (k : String) : JVal := (List.lookup k d).getD .jnull

/-- Python whitespace, as stripped by `str.strip`. -/
def isSpaceChar (c : Char) : Bool :=
  c == ' ' || c == '\t' || c == '\n' || c == '\r' || c.toNat == 11 || c.toNat == 12

/-- Model of `str.strip`: drop whitespace from both ends. -/
def trimStr (s : String) : String :=
  String.mk (((s.data.dropWhile isSpaceChar).reverse.dropWhile isSpaceChar).reverse)

/-- Lexicographic-by-code-point string order, as Python `sorted` uses. -/
def listLE : List Char → List Char → Bool
  | [], _ => true
  | _ :: _, [] => false
  | a :: as, b :: bs =>
      if a.toNat < b.toNat then true
      else if b.toNat < a.toNat then false
      else listLE as bs

/-- String wrapper for `listLE`. -/
def strle (a b : String) : Bool := listLE a.data b.data

/-- The sorting relation used to model Python `sorted` on strings. -/
def strleProp (a b : String) : Prop := strle a b = true

instance strleProp_decidable : DecidableRel strleProp := fun a b =>
  inferInstanceAs (Decidable (strle a b = true))

/-- The fixed 8-tag keyword vocabulary of the model-backed parser. -/
def LLM_KEYWORD_TAGS : List String :=
  ["ml", "data", "nlp", "ai", "bio", "stats", "systems", "theory"]

/-- Model of `_normalize_intent_dict`: enforce types and defaults on the
raw payload, field by field.  Python treats `bool` as a subclass of
`int`, so `jbool` qualifies for the `isinstance(x, (int, float))`
branches of `class_num` and `level`. -/
def normalize_intent_dict (data : Payload) (original_text : String) : Intent :=
  let text_lower := lowerStr original_text
  let pol0 := lowerStr (pyStr (if truthy (pget data "polarity") then pget data "polarity"
    else .jstr ""))
  let polarity :=
    if pol0 = "easy" ∨ pol0 = "hard" then pol0
    else if strContains text_lower "hard" || strContains text_lower "strict" then "hard"
    else "easy"
  let subject :=
    match pget data "subject" with
    | .jstr s => if trimStr s = "" then none else some (trimStr (upperStr s))
    | _ => none
  let class_num :=
    match pget data "class_num" with
    | .jint n => some (toString n)
    | .jbool b => some (if b then "1" else "0")
    | .jstr s => if trimStr s = "" then none else some (trimStr s)
    | _ => none
  let rawKeywords :=
    match (if truthy (pget data "keywords") then pget data "keywords" else .jlist []) with
    | .jlist l => l
    | _ => []
  let kws := rawKeywords.filterMap (fun k =>
    match k with
    | .jstr s =>
        let k1 := trimStr (lowerStr s)
        if k1 ∈ LLM_KEYWORD_TAGS then some k1 else none
    | _ => none)
  let keywords := List.insertionSort strleProp kws.dedup
  let level :=
    match pget data "level" with
    | .jint n => some n
    | .jbool b => some (if b then (1 : Int) else 0)
    | _ => none
  let instructor_like :=
    match pget data "instructor_like" with
    | .jstr s => if trimStr s = "" then none else some (lowerStr (trimStr s))
    | _ => none
  { polarity := polarity
    subject := subject
    class_num := class_num
    keywords := keywords
    recent := truthy (pget data "recent")
    level := level
    instructor_like := instructor_like
    explain := truthy (pget data "explain")
    details := truthy (pget data "details") }

/-! ### Concrete data for the claims -/

/-- Section of instructor X (Yu): `A_rate = 56.7`, `DFW_rate = 16.7`. -/
def secX : Row :=
  { subject := "CS", class_num := "580", class_title := "Query Process Database Systms",
    instructor := "Yu, Clement T", semester := "FA23", total_students := some 1000,
    A := 567, B := 100, C := 166, D := 100, F := 33, withdrawn := 34 }

/-- Section of instructor Y (Sintos): `A_rate = 90.3`, `DFW_rate = 0`. -/
def secY : Row :=
  { subject := "CS", class_num := "580", class_title := "Query Process Database Systms",
    instructor := "Sintos, Stavros", semester := "SP24", total_students := some 1000,
    A := 903, B := 97, C := 0, D := 0, F := 0, withdrawn := 0 }

/-- The two-section CS 580 warehouse of the ranking claim. -/
def dummyWarehouse : List Row := [secX, secY]

/-- Intent `{polarity: easy, subject: CS, class_num: 580}`. -/
def intentEasy580 : Intent :=
  { polarity := "easy", subject := some "CS", class_num := some "580" }

/-- Intent `{polarity: hard, subject: CS, class_num: 580}`. -/
def intentHard580 : Intent :=
  { polarity := "hard", subject := some "CS", class_num := some "580" }

/-! ### Claim C1 -/

theorem C1_not_easy_le : ¬ order_le "easy" secX secY := by
  simp only [order_le, if_neg (by decide : ¬ ("easy" = "hard")), easyKey]
  rw [Prod.Lex.le_iff]
  push_neg
  constructor
  · norm_num [A_rate, secX, secY]
  · intro h
    exfalso
    have : A_rate secX = A_rate secY := by linarith [neg_injective h]
    norm_num [A_rate, secX, secY] at this

/-- Claim C1: over a warehouse holding exactly the two CS 580 sections
`secX` (`A_rate 56.7`, `DFW_rate 16.7`) and `secY` (`A_rate 90.3`,
`DFW_rate 0`), the easy intent ranks `secY` first and `secX` second, and
the hard intent ranks `secX` first. -/
theorem C1_hard_le : order_le "hard" secX secY := by
  simp only [order_le, if_pos rfl, hardKey]
  rw [Prod.Lex.le_iff]
  left
  norm_num [DFW_rate, secX, secY]

/-- Claim C1: over a warehouse holding exactly the two CS 580 sections
`secX` (`A_rate 56.7`, `DFW_rate 16.7`) and `secY` (`A_rate 90.3`,
`DFW_rate 0`), the easy intent ranks `secY` first and `secX` second, and
the hard intent ranks `secX` first and `secY` second. -/
theorem C1_rank_orders_by_polarity :
    (rank_professors intentEasy580 5 (some dummyWarehouse) 2025).1 = [secY, secX] ∧
    (rank_professors intentHard580 5 (some dummyWarehouse) 2025).1 = [secX, secY] := by
  constructor
  · change ((List.insertionSort (order_le "easy") [secX, secY]).take 5, false).1 = _
    simp only [List.insertionSort, List.orderedInsert]
    rw [if_neg C1_not_easy_le]
    rfl
  · change ((List.insertionSort (order_le "hard") [secX, secY]).take 5, false).1 = _
    simp only [List.insertionSort, List.orderedInsert]
    rw [if_pos C1_hard_le]
    rfl

/-! ### Membership facts shared by several claims -/

/-- Every row returned by `rank_professors` comes from the warehouse and
passed the base filter and the compiled params filter. -/
theorem mem_rank_professors {p : Intent} {top_n : Nat} {wh : List Row} {now : Int} {r : Row}
    (h : r ∈ (rank_professors p top_n (some wh) now).1) :
    r ∈ wh ∧ baseFilter r = true ∧ apply_filters p now r = true := by
  simp only [rank_professors] at h
  have h1 : r ∈ (base_query wh).filter (fun r => apply_filters p now r) :=
    ((List.perm_insertionSort (order_le p.polarity) _).mem_iff).mp (List.mem_of_mem_take h)
  rw [List.mem_filter] at h1
  obtain ⟨h2, h3⟩ := h1
  rw [base_query, List.mem_filter] at h2
  exact ⟨h2.1, h2.2, h3⟩

/-- Every row returned by `details_section` comes from the warehouse and
passed the base filter and the compiled params filter for the details
params dict. -/
theorem mem_details_section {s c i : String} {wh : List Row} {now : Int} {r : Row}
    (h : r ∈ (details_section s c i (some wh) now).1) :
    r ∈ wh ∧ baseFilter r = true ∧ apply_filters (details_params s c i) now r = true := by
  simp only [details_section] at h
  have h1 : r ∈ (base_query wh).filter (fun r => apply_filters (details_params s c i) now r) :=
    ((List.perm_insertionSort details_le _).mem_iff).mp (List.mem_of_mem_take h)
  rw [List.mem_filter] at h1
  obtain ⟨h2, h3⟩ := h1
  rw [base_query, List.mem_filter] at h2
  exact ⟨h2.1, h2.2, h3⟩

/-! ### Claim C2 -/

/-- Claim C2: with a (truthy) exact `class_num` filter the compiled query
omits the minimum-enrollment clause — whether a positive-enrollment
section passes the filter pipeline does not depend on its
`total_students` — while without `class_num` every row returned by
`rank_professors` has `total_students ≥ MIN_ENROLLMENT` (default 8). -/
theorem C2_min_enrollment_bypass (p : Intent) (now : Int) (r : Row) (t t' : Int)
    (wh : List Row) (top_n : Nat) :
    (truthyStr p.class_num ≠ none → 0 < t → 0 < t' →
      apply_filters p now { r with total_students := some t } =
        apply_filters p now { r with total_students := some t' }) ∧
    (truthyStr p.class_num = none → r ∈ (rank_professors p top_n (some wh) now).1 →
      ∃ s, r.total_students = some s ∧ MIN_ENROLLMENT ≤ s) := by
  constructor
  · intro hc _ _
    match heq : truthyStr p.class_num with
    | none => exact absurd heq hc
    | some c =>
        simp only [apply_filters, subject_clause, class_num_clause, level_clause,
          keywords_clause, instructor_clause, min_enrollment_clause, recency_clause, heq]
  · intro hc hmem
    obtain ⟨-, -, hf⟩ := mem_rank_professors hmem
    simp only [apply_filters, Bool.and_eq_true] at hf
    have hmin := hf.1.2
    rw [min_enrollment_clause, hc] at hmin
    match hts : r.total_students with
    | none => rw [hts] at hmin; exact absurd hmin (by simp)
    | some s =>
        rw [hts] at hmin
        exact ⟨s, rfl, by simpa using hmin⟩

theorem C2_min_enrollment_bypass_witness :
    (apply_filters intentEasy580 2025 { secX with total_students := some 3 } =
      apply_filters intentEasy580 2025 { secX with total_students := some 100 }) ∧
    (∃ s, secX.total_students = some s ∧ MIN_ENROLLMENT ≤ s) :=
  ⟨(C2_min_enrollment_bypass intentEasy580 2025 secX 3 100 [] 5).1 (by decide) (by decide)
      (by decide),
   (C2_min_enrollment_bypass {} 2025 secX 3 100 [secX] 5).2 (by decide) (by decide)⟩

/-! ### Claim C6 -/

/-- Claim C6: when the intent's `recent` flag is set, a warehouse row is
returned by `rank_professors` only if its semester decodes — length-4
code whose last two characters cast to an integer `n`, decoded as
`2000 + n` — and the decoded year is at least `now` minus the recency
window; in particular a row whose semester fails to decode is never
returned. -/
theorem C6_recency_requires_decodable_semester (p : Intent) (top_n : Nat) (wh : List Row)
    (now : Int) (r : Row) (hrec : p.recent = true)
    (hmem : r ∈ (rank_professors p top_n (some wh) now).1) :
    r.semester.length = 4 ∧
      ∃ n, parseInt ((r.semester.data.drop 2).take 2) = some n ∧
        now - DEFAULT_RECENCY_YEARS ≤ 2000 + n := by
  obtain ⟨-, -, hf⟩ := mem_rank_professors hmem
  simp only [apply_filters, Bool.and_eq_true] at hf
  have hr := hf.2
  simp only [recency_clause, hrec, if_true] at hr
  match hsem : semester_year r.semester with
  | none => rw [hsem] at hr; exact absurd hr (by simp)
  | some y =>
      rw [hsem] at hr
      have hy : now - DEFAULT_RECENCY_YEARS ≤ y := by simpa using hr
      rw [semester_year] at hsem
      by_cases hlen : r.semester.length = 4
      · rw [if_pos hlen] at hsem
        obtain ⟨n, hn, hfn⟩ := Option.map_eq_some'.mp hsem
        exact ⟨hlen, n, hn, by rw [hfn]; exact hy⟩
      · rw [if_neg hlen] at hsem
        exact absurd hsem (by simp)

theorem C6_recency_requires_decodable_semester_witness :
    secX.semester.length = 4 ∧
      ∃ n, parseInt ((secX.semester.data.drop 2).take 2) = some n ∧
        2025 - DEFAULT_RECENCY_YEARS ≤ 2000 + n :=
  C6_recency_requires_decodable_semester { polarity := "easy", recent := true } 5 [secX]
    2025 secX (by decide) (by decide)

/-! ### Claim C7 -/

instance details_le_total : IsTotal Row details_le :=
  ⟨fun _ _ => le_total _ _⟩

instance details_le_trans : IsTrans Row details_le :=
  ⟨fun _ _ _ h1 h2 => le_trans h1 h2⟩

/-- Claim C7: for every `(subject, class_num, instructor_like)` input and
every warehouse, `details_section` returns at most 20 rows, returns them
ordered by decoded semester year descending (missing years last), and
every returned row passed exactly the ranking filter pipeline
(`apply_filters`) for the details params dict. -/
theorem C7_details_pipeline_order_cap (s c i : String) (wh : List Row) (now : Int)
    (r : Row) :
    (details_section s c i (some wh) now).1.length ≤ 20 ∧
    List.Sorted details_le (details_section s c i (some wh) now).1 ∧
    (r ∈ (details_section s c i (some wh) now).1 →
      r ∈ wh ∧ baseFilter r = true ∧ apply_filters (details_params s c i) now r = true) := by
  refine ⟨?_, ?_, fun h => mem_details_section h⟩
  · simp only [details_section]
    exact List.length_take_le 20 _
  · simp only [details_section]
    exact List.Pairwise.sublist (List.take_sublist _ _)
      (List.sorted_insertionSort details_le _)

theorem C7_details_pipeline_order_cap_witness :
    (details_section "CS" "580" "yu" (some [secX]) 2025).1.length ≤ 20 ∧
    List.Sorted details_le (details_section "CS" "580" "yu" (some [secX]) 2025).1 ∧
    (secX ∈ [secX] ∧ baseFilter secX = true ∧
      apply_filters (details_params "CS" "580" "yu") 2025 secX = true) :=
  ⟨(C7_details_pipeline_order_cap "CS" "580" "yu" [secX] 2025 secX).1,
   (C7_details_pipeline_order_cap "CS" "580" "yu" [secX] 2025 secX).2.1,
   (C7_details_pipeline_order_cap "CS" "580" "yu" [secX] 2025 secX).2.2 (by decide)⟩

/-! ### Claim C8

The claim says BOTH operations log a warning on a missing warehouse.  In
the source, `rank_professors` does (`log.warning("Warehouse not found at
%s", ...)`) but `details_section` just returns `[]` with no logging call,
so the claim fails for `details_section`; the counterexample exhibits
this, and the amended theorem records the actual behavior. -/

/-- Counterexample to claim C8 as stated: on a missing warehouse,
`details_section` executes no `log.warning` (the logged flag of the model
is `false`), so it is not the case that both operations log a warning. -/
theorem C8_details_no_warning_counterexample :
    ¬ ((details_section "CS" "580" "yu" none 2025).2 = true) := by decide

/-- Claim C8 as amended: on a missing warehouse both operations return an
empty sequence and neither raises; `rank_professors` logs a warning while
`details_section` returns silently. -/
theorem C8_missing_warehouse_degrades_to_empty (p : Intent) (top_n : Nat) (now : Int)
    (s c i : String) :
    rank_professors p top_n none now = ([], true) ∧
    details_section s c i none now = ([], false) :=
  ⟨rfl, rfl⟩

/-! ### Claim C9 -/

/-- The base query's `WHERE` clause forces a present, positive
enrollment. -/
theorem baseFilter_pos {r : Row} (h : baseFilter r = true) :
    ∃ t, r.total_students = some t ∧ 0 < t := by
  match hts : r.total_students with
  | none => rw [baseFilter, hts] at h; exact absurd h (by simp)
  | some t => rw [baseFilter, hts] at h; exact ⟨t, rfl, by simpa using h⟩

/-- Claim C9 (implicit): every row returned by `rank_professors` or by
`details_section` has a non-NULL, strictly positive `total_students` —
the base query excludes zero- and missing-enrollment rows in every mode,
so the `ELSE 0` branch of the derived rates never contributes an output
row. -/
theorem C9_outputs_have_positive_enrollment (p : Intent) (top_n : Nat) (wh : List Row)
    (now : Int) (r : Row) (s c i : String) :
    (r ∈ (rank_professors p top_n (some wh) now).1 →
      ∃ t, r.total_students = some t ∧ 0 < t) ∧
    (r ∈ (details_section s c i (some wh) now).1 →
      ∃ t, r.total_students = some t ∧ 0 < t) :=
  ⟨fun h => baseFilter_pos (mem_rank_professors h).2.1,
   fun h => baseFilter_pos (mem_details_section h).2.1⟩

theorem C9_outputs_have_positive_enrollment_witness :
    (∃ t, secX.total_students = some t ∧ 0 < t) ∧
    (∃ t, secX.total_students = some t ∧ 0 < t) :=
  ⟨(C9_outputs_have_positive_enrollment {} 5 [secX] 2025 secX "CS" "580" "yu").1 (by decide),
   (C9_outputs_have_positive_enrollment {} 5 [secX] 2025 secX "CS" "580" "yu").2 (by decide)⟩

/-! ### Claim C10 -/

/-- A keyword whose lowercase form is outside the recognized vocabulary
contributes no clause. -/
theorem keyword_tests_eq_none {k : String}
    (h : lowerStr k ∉ (["ml", "ai", "data", "nlp", "language", "query", "retrieval",
      "ir"] : List String)) :
    keyword_tests k = none := by
  simp only [List.mem_cons, List.not_mem_nil, or_false, not_or] at h
  obtain ⟨h1, h2, h3, h4, h5, h6, h7, h8⟩ := h
  simp only [keyword_tests]
  rw [if_neg h1, if_neg h2, if_neg h3, if_neg (not_or.mpr ⟨h4, h5⟩),
    if_neg (not_or.mpr ⟨h6, not_or.mpr ⟨h7, h8⟩⟩)]

/-- Claim C10 (implicit): the compiler only builds title clauses for the
tags `ml`, `ai`, `data`, `nlp`/`language` and `query`/`retrieval`/`ir`;
an intent whose keywords all fall outside that set ranks exactly like the
same intent with no keywords at all. -/
theorem C10_unrecognized_keywords_add_no_filter (p : Intent) (wh : List Row) (top_n : Nat)
    (now : Int)
    (h : ∀ k ∈ p.keywords, lowerStr k ∉ (["ml", "ai", "data", "nlp", "language", "query",
      "retrieval", "ir"] : List String)) :
    rank_professors p top_n (some wh) now =
      rank_professors { p with keywords := [] } top_n (some wh) now := by
  have hnil : p.keywords.filterMap keyword_tests = [] :=
    List.filterMap_eq_nil_iff.mpr fun k hk => keyword_tests_eq_none (h k hk)
  have hfeq : (fun r => apply_filters p now r) =
      (fun r => apply_filters { p with keywords := [] } now r) := by
    funext r
    simp only [apply_filters, subject_clause, class_num_clause, level_clause,
      keywords_clause, instructor_clause, min_enrollment_clause, recency_clause, hnil,
      List.filterMap_nil]
  simp only [rank_professors, hfeq]

theorem C10_unrecognized_keywords_add_no_filter_witness :
    rank_professors { polarity := "easy", keywords := ["bio", "stats"] } 5 (some [secX])
        2025 =
      rank_professors { ({ polarity := "easy", keywords := ["bio", "stats"] } : Intent) with
        keywords := ([] : List String) } 5 (some [secX]) 2025 :=
  C10_unrecognized_keywords_add_no_filter { polarity := "easy", keywords := ["bio", "stats"] }
    [secX] 5 2025 (by decide)

/-! ### Claim C4 -/

/-- A successful association-list lookup returns one of the stored
values. -/
theorem lookup_mem_values {α β : Type} [BEq α] (l : List (α × β)) (k : α) (v : β)
    (h : List.lookup k l = some v) : v ∈ l.map Prod.snd := by
  induction l with
  | nil => simp [List.lookup] at h
  | cons a as ih =>
      rw [List.lookup] at h
      split at h
      · injection h with h2
        exact h2 ▸ List.mem_map.mpr ⟨a, List.mem_cons_self a as, rfl⟩
      · exact List.mem_map.mpr (by
          obtain ⟨b, hb, he⟩ := List.mem_map.mp (ih h)
          exact ⟨b, List.mem_cons_of_mem a hb, he⟩)

/-- The polarity extractor can only produce `easy` or `hard`. -/
theorem extract_polarity_mem (toks : List (List Char)) :
    extract_polarity toks = "easy" ∨ extract_polarity toks = "hard" := by
  induction toks with
  | nil => left; rfl
  | cons t ts ih =>
      rw [extract_polarity]
      match hl : List.lookup (String.mk t) POLARITY_MAP with
      | none => exact ih
      | some p =>
          have hp := lookup_mem_values _ _ _ hl
          simp only [POLARITY_MAP, List.map_cons, List.map_nil, List.mem_cons,
            List.not_mem_nil, or_false] at hp
          tauto

/-- The subject extractor only returns known subject codes. -/
theorem extract_subject_mem (toks : List (List Char)) (s : String)
    (h : extract_subject toks = some s) : s ∈ SUBJECT_CODES := by
  induction toks with
  | nil => simp [extract_subject] at h
  | cons t ts ih =>
      rw [extract_subject] at h
      split at h
      · injection h with h2
        exact h2 ▸ (by assumption)
      · exact ih h

/-- Upper-casing fixes each known subject code. -/
theorem upperStr_subject_code {s : String} (h : s ∈ SUBJECT_CODES) : upperStr s = s := by
  simp only [SUBJECT_CODES, List.mem_cons, List.not_mem_nil, or_false] at h
  rcases h with h | h | h | h | h | h | h | h | h <;> subst h <;> decide

/-- The keyword extractor only emits family tags of `KEYWORD_SYNONYMS`. -/
theorem extract_keywords_mem (toks : List (List Char)) (k : String)
    (h : k ∈ extract_keywords toks) : k ∈ (["ml", "ai", "data", "nlp", "query"] : List String) := by
  simp only [extract_keywords, List.mem_map] at h
  obtain ⟨kv, hkv, rfl⟩ := h
  have hmem := (List.mem_filter.mp hkv).1
  fin_cases hmem <;> decide

/-- Every character of every token produced by `tokAux` satisfies
`isTokChar`, provided the running accumulator does. -/
theorem tokAux_chars (l : List Char) : ∀ (cur : List Char),
    (∀ c ∈ cur, isTokChar c = true) →
    ∀ t ∈ tokAux cur l, ∀ c ∈ t, isTokChar c = true := by
  induction l with
  | nil =>
      intro cur hcur t ht c hc
      rw [tokAux] at ht
      split at ht
      · simp at ht
      · rw [List.mem_singleton] at ht
        exact hcur c (List.mem_reverse.mp (ht ▸ hc))
  | cons a rest ih =>
      intro cur hcur t ht c hc
      rw [tokAux] at ht
      split at ht
      · refine ih (a :: cur) ?_ t ht c hc
        intro c' hc'
        rcases List.mem_cons.mp hc' with h | h
        · subst h; assumption
        · exact hcur c' h
      · split at ht
        · exact ih [] (by simp) t ht c hc
        · rcases List.mem_cons.mp ht with h | h
          · exact hcur c (List.mem_reverse.mp (h ▸ hc))
          · exact ih [] (by simp) t h c hc

/-- Every character of every token of `tokenize` satisfies `isTokChar`. -/
theorem tokenize_chars {text : String} {t : List Char} (ht : t ∈ tokenize text) :
    ∀ c ∈ t, isTokChar c = true :=
  tokAux_chars _ [] (by simp) t ht

/-- Lower-casing fixes any character of the tokenizer's class (digits,
lowercase letters and the hyphen are outside the `A`–`Z` range). -/
theorem lowerChar_tok_fixed {c : Char} (h : isTokChar c = true) : lowerChar c = c := by
  rw [lowerChar, if_neg]
  simp only [isTokChar, isDigitChar, Bool.or_eq_true, Bool.and_eq_true,
    decide_eq_true_eq] at h
  omega

/-- Lower-casing fixes any string all of whose characters are in the
tokenizer's class. -/
theorem lowerStr_tok_fixed {t : List Char} (h : ∀ c ∈ t, isTokChar c = true) :
    lowerStr (String.mk t) = String.mk t := by
  rw [lowerStr]
  congr 1
  calc List.map lowerChar t = List.map id t :=
        List.map_congr_left fun c hc => lowerChar_tok_fixed (h c hc)
    _ = t := List.map_id t

/-- A successful `getLast?` returns a member of the list. -/
theorem getLast?_mem {α : Type} {l : List α} {a : α} (h : l.getLast? = some a) : a ∈ l := by
  induction l with
  | nil => simp at h
  | cons b bs ih =>
      match bs, ih with
      | [], _ => simp_all
      | c :: cs, ih =>
          rw [List.getLast?_cons_cons] at h
          exact List.mem_cons_of_mem b (ih h)

/-- The instructor extractor returns one of the input's tokens. -/
theorem extract_instructor_like_token {text : String} {s : String}
    (h : extract_instructor_like text = some s) :
    ∃ t ∈ tokenize text, s = String.mk t := by
  simp only [extract_instructor_like, Option.map_eq_some'] at h
  obtain ⟨t, ht, rfl⟩ := h
  exact ⟨t, List.mem_of_mem_filter (getLast?_mem ht), rfl⟩

/-- Claim C4: for every input text, the rule-based parser returns an
intent whose polarity is `easy` or `hard`, whose keywords all lie in the
rule vocabulary `\x7bml, ai, data, nlp, query\x7d`, whose subject (when
present) is upper-case, and whose `instructor_like` (when present) is
lower-case.  (The parser is a total function, so it never raises.) -/
theorem C4_rule_parser_invariants (text : String) :
    ((parse text).polarity = "easy" ∨ (parse text).polarity = "hard") ∧
    (∀ k ∈ (parse text).keywords, k ∈ (["ml", "ai", "data", "nlp", "query"] : List String)) ∧
    (∀ s, (parse text).subject = some s → upperStr s = s) ∧
    (∀ s, (parse text).instructor_like = some s → lowerStr s = s) := by
  refine ⟨?_, ?_, ?_, ?_⟩
  · exact extract_polarity_mem (tokenize text)
  · exact fun k hk => extract_keywords_mem (tokenize text) k hk
  · intro s hs
    exact upperStr_subject_code (extract_subject_mem (tokenize text) s hs)
  · intro s hs
    simp only [parse] at hs
    split at hs
    · obtain ⟨t, ht, rfl⟩ := extract_instructor_like_token hs
      exact lowerStr_tok_fixed (tokenize_chars ht)
    · simp at hs

theorem C4_rule_parser_invariants_witness :
    ((parse "details easy cs 580 ml prof yu").polarity = "easy" ∨
      (parse "details easy cs 580 ml prof yu").polarity = "hard") ∧
    "ml" ∈ (["ml", "ai", "data", "nlp", "query"] : List String) ∧
    upperStr "CS" = "CS" ∧ lowerStr "yu" = "yu" :=
  ⟨(C4_rule_parser_invariants "details easy cs 580 ml prof yu").1,
   (C4_rule_parser_invariants "details easy cs 580 ml prof yu").2.1 "ml" (by decide),
   (C4_rule_parser_invariants "details easy cs 580 ml prof yu").2.2.1 "CS" (by decide),
   (C4_rule_parser_invariants "details easy cs 580 ml prof yu").2.2.2 "yu" (by decide)⟩

/-! ### Claim C5

The claim guards only against earlier tokens that are purely digits or
literally of the form `<digits>-level`.  The source's test is weaker: it
accepts any token that ends in `-level` whose segment before the FIRST
hyphen is purely digits (`t.split("-")[0]`), e.g. `5-00-level`, which is
not of the form `<digits>-level` but still yields class_num `5` and
level `5`.  The claim as stated is therefore false; the amended claim
replaces the `<digits>-level` exclusion with the source's test. -/

/-- A token literally of the form `<digits>-level`: it ends with
`-level` and everything before that suffix is a non-empty digit run. -/
def digitsLevelForm (t : List Char) : Bool :=
  endsWith t "-level".data && token_isdigit (t.take (t.length - 6))

/-- Claim C5 exactly as stated: any occurrence of the token `500-level`
preceded by no purely-digit token and no `<digits>-level`-form token
populates `class_num = "500"` and `level = 500`. -/
def C5_statement : Prop :=
  ∀ (text : String) (pre post : List (List Char)),
    tokenize text = pre ++ ("500-level".data :: post) →
    (∀ t ∈ pre, ¬ (token_isdigit t = true) ∧ ¬ (digitsLevelForm t = true)) →
    (parse text).class_num = some "500" ∧ (parse text).level = some 500

/-- Counterexample to claim C5: on input `"5-00-level 500-level"` the
earlier token `5-00-level` is neither purely digits nor of the form
`<digits>-level`, yet the parser takes its split-prefix first and
returns `class_num = "5"` (and `level = 5`), not `"500"`. -/
theorem C5_counterexample_split_prefix : ¬ C5_statement := by
  intro h
  have hc := (h "5-00-level 500-level" ["5-00-level".data] [] (by decide) (by decide)).1
  rw [show (parse "5-00-level 500-level").class_num = some "5" from by decide] at hc
  exact absurd hc (by decide)

/-- No token of `pre` yields a class-number candidate, so the extractor
skips all of `pre`. -/
theorem extract_class_num_append (pre post : List (List Char)) (tok : List Char)
    (hpre : ∀ t ∈ pre, classNumTok t = none) :
    extract_class_num (pre ++ (tok :: post)) = extract_class_num (tok :: post) := by
  induction pre with
  | nil => rw [List.nil_append]
  | cons t ts ih =>
      rw [List.cons_append, extract_class_num, hpre t (List.mem_cons_self t ts)]
      exact ih fun t' ht' => hpre t' (List.mem_cons_of_mem t ht')

/-- No token of `pre` yields a class-number candidate, so neither of the
level extractor's firing conditions holds on `pre` and it skips all of
it: a firing `-level` token is a candidate source, and a firing digit
token is purely digits. -/
theorem extract_level_append (pre post : List (List Char)) (tok : List Char)
    (hpre : ∀ t ∈ pre, classNumTok t = none) :
    extract_level (pre ++ (tok :: post)) = extract_level (tok :: post) := by
  induction pre with
  | nil => rw [List.nil_append]
  | cons t ts ih =>
      have hc := hpre t (List.mem_cons_self t ts)
      have hd : ¬ (token_isdigit t = true) := by
        intro hd
        rw [classNumTok, if_pos hd] at hc
        exact Option.noConfusion hc
      have he : ¬ ((endsWith t "-level".data && token_isdigit (splitHead t)) = true) := by
        intro he
        rw [classNumTok, if_neg hd, if_pos he] at hc
        exact Option.noConfusion hc
      rw [List.cons_append, extract_level, if_neg he,
        if_neg (fun h2 => hd (by simp only [Bool.and_eq_true] at h2; exact h2.1))]
      exact ih fun t' ht' => hpre t' (List.mem_cons_of_mem t ht')

/-- Claim C5 as amended: the earlier-token exclusion must also rule out
tokens that end in `-level` with a purely-numeric segment before the
first hyphen, i.e. exactly the tokens from which `_extract_class_num`
and `_extract_level` take a candidate.  Under that hypothesis,
`500-level` populates both fields: `class_num = "500"` and `level =
500`. -/
theorem C5_level_token_populates_both (text : String) (pre post : List (List Char))
    (htok : tokenize text = pre ++ ("500-level".data :: post))
    (hpre : ∀ t ∈ pre, classNumTok t = none) :
    (parse text).class_num = some "500" ∧ (parse text).level = some 500 := by
  constructor
  · simp only [parse]
    rw [htok, extract_class_num_append _ _ _ hpre, extract_class_num,
      show classNumTok "500-level".data = some "500".data from by decide]
    rfl
  · simp only [parse]
    rw [htok, extract_level_append _ _ _ hpre, extract_level, if_pos (by decide)]
    decide

theorem C5_level_token_populates_both_witness :
    (parse "500-level").class_num = some "500" ∧ (parse "500-level").level = some 500 :=
  C5_level_token_populates_both "500-level" [] [] (by decide) (by decide)

/-! ### Claim C3 -/

/-- `listLE` is total. -/
theorem listLE_total : ∀ a b : List Char, listLE a b = true ∨ listLE b a = true := by
  intro a
  induction a with
  | nil => intro b; left; rfl
  | cons x xs ih =>
      intro b
      cases b with
      | nil => right; rfl
      | cons y ys =>
          rw [listLE, listLE]
          by_cases h1 : x.toNat < y.toNat
          · left; rw [if_pos h1]
          · by_cases h2 : y.toNat < x.toNat
            · right; rw [if_pos h2]
            · rw [if_neg h1, if_neg h2, if_neg h2, if_neg h1]
              exact ih ys

/-- `listLE` is transitive. -/
theorem listLE_trans : ∀ a b c : List Char,
    listLE a b = true → listLE b c = true → listLE a c = true := by
  intro a
  induction a with
  | nil => intro b c _ _; rfl
  | cons x xs ih =>
      intro b c hab hbc
      cases b with
      | nil => rw [listLE] at hab; exact absurd hab (by simp)
      | cons y ys =>
          cases c with
          | nil => rw [listLE] at hbc; exact absurd hbc (by simp)
          | cons z zs =>
              rw [listLE] at hab hbc ⊢
              by_cases hxy : x.toNat < y.toNat
              · by_cases hyz : y.toNat < z.toNat
                · rw [if_pos (by omega : x.toNat < z.toNat)]
                · by_cases hzy : z.toNat < y.toNat
                  · rw [if_neg hyz, if_pos hzy] at hbc; exact absurd hbc (by simp)
                  · rw [if_pos (by omega : x.toNat < z.toNat)]
              · by_cases hyx : y.toNat < x.toNat
                · rw [if_neg hxy, if_pos hyx] at hab; exact absurd hab (by simp)
                · by_cases hyz : y.toNat < z.toNat
                  · rw [if_pos (by omega : x.toNat < z.toNat)]
                  · by_cases hzy : z.toNat < y.toNat
                    · rw [if_neg hyz, if_pos hzy] at hbc; exact absurd hbc (by simp)
                    · rw [if_neg hxy, if_neg hyx] at hab
                      rw [if_neg hyz, if_neg hzy] at hbc
                      rw [if_neg (by omega : ¬ x.toNat < z.toNat),
                        if_neg (by omega : ¬ z.toNat < x.toNat)]
                      exact ih ys zs hab hbc

instance strleProp_total : IsTotal String strleProp :=
  ⟨fun a b => listLE_total a.data b.data⟩

instance strleProp_trans : IsTrans String strleProp :=
  ⟨fun a b c hab hbc => listLE_trans a.data b.data c.data hab hbc⟩

/-- Two polarity candidates that both fail the `easy`/`hard` test give
the same fallback result. -/
theorem polarity_fallback_eq {a b : String} (ha : ¬ (a = "easy" ∨ a = "hard"))
    (hb : ¬ (b = "easy" ∨ b = "hard")) (f : String) :
    (if a = "easy" ∨ a = "hard" then a else f) =
      (if b = "easy" ∨ b = "hard" then b else f) := by
  rw [if_neg ha, if_neg hb]

/-- Claim C3: for every raw payload and every original text, the
normalization step yields a polarity equal to the payload's value
lowercased when that is exactly `easy` or `hard` and otherwise derived
from the original text (`hard` when the text contains `hard` or
`strict`, else `easy`); and a keywords list drawn from the fixed 8-tag
vocabulary, duplicate-free and sorted. -/
theorem C3_normalize_polarity_keywords (data : Payload) (text : String) :
    ((normalize_intent_dict data text).polarity =
      (if lowerStr (pyStr (pget data "polarity")) = "easy" ∨
          lowerStr (pyStr (pget data "polarity")) = "hard" then
        lowerStr (pyStr (pget data "polarity"))
      else if strContains (lowerStr text) "hard" || strContains (lowerStr text) "strict" then
        "hard"
      else "easy")) ∧
    (∀ k ∈ (normalize_intent_dict data text).keywords, k ∈ LLM_KEYWORD_TAGS) ∧
    (normalize_intent_dict data text).keywords.Nodup ∧
    List.Sorted strleProp (normalize_intent_dict data text).keywords := by
  refine ⟨?_, ?_, ?_, ?_⟩
  · simp only [normalize_intent_dict]
    by_cases ht : truthy (pget data "polarity") = true
    · rw [if_pos ht]
    · rw [if_neg ht]
      cases hv : pget data "polarity" with
      | jnull => exact polarity_fallback_eq (by decide) (by decide) _
      | jbool b =>
          rw [hv] at ht
          have hb : b = false := by simpa [truthy] using ht
          subst hb; exact polarity_fallback_eq (by decide) (by decide) _
      | jint n =>
          rw [hv] at ht
          have hn : n = 0 := by simpa [truthy] using ht
          subst hn; exact polarity_fallback_eq (by decide) (by decide) _
      | jstr s =>
          rw [hv] at ht
          have hs : s = "" := by simpa [truthy] using ht
          subst hs; exact polarity_fallback_eq (by decide) (by decide) _
      | jlist l =>
          rw [hv] at ht
          have hl : l = [] := by simpa [truthy, List.isEmpty_iff] using ht
          subst hl; exact polarity_fallback_eq (by decide) (by decide) _
  · intro k hk
    simp only [normalize_intent_dict] at hk
    have h1 := (List.perm_insertionSort strleProp _).mem_iff.mp hk
    rw [List.mem_dedup] at h1
    obtain ⟨v, _, hfv⟩ := List.mem_filterMap.mp h1
    cases v with
    | jstr s =>
        dsimp only at hfv
        split at hfv
        · injection hfv with h2; exact h2 ▸ (by assumption)
        · exact absurd hfv (by simp)
    | jnull => exact absurd hfv (by simp)
    | jbool b => exact absurd hfv (by simp)
    | jint n => exact absurd hfv (by simp)
    | jlist l => exact absurd hfv (by simp)
  · simp only [normalize_intent_dict]
    exact (List.perm_insertionSort strleProp _).symm.nodup (List.nodup_dedup _)
  · simp only [normalize_intent_dict]
    exact List.sorted_insertionSort strleProp _

theorem C3_normalize_polarity_keywords_witness :
    ((normalize_intent_dict
        [("polarity", JVal.jstr "EASY"),
         ("keywords", JVal.jlist [JVal.jstr "ml", JVal.jstr "bogus", JVal.jstr " AI ",
           JVal.jstr "ml"])] "whatever").polarity =
      (if lowerStr (pyStr (pget [("polarity", JVal.jstr "EASY"),
          ("keywords", JVal.jlist [JVal.jstr "ml", JVal.jstr "bogus", JVal.jstr " AI ",
            JVal.jstr "ml"])] "polarity")) = "easy" ∨
          lowerStr (pyStr (pget [("polarity", JVal.jstr "EASY"),

            ("keywords", JVal.jlist [JVal.jstr "ml", JVal.jstr "bogus", JVal.jstr " AI ",
              JVal.jstr "ml"])] "polarity")) = "hard" then
        lowerStr (pyStr (pget [("polarity", JVal.jstr "EASY"),
          ("keywords", JVal.jlist [JVal.jstr "ml", JVal.jstr "bogus", JVal.jstr " AI ",
            JVal.jstr "ml"])] "polarity"))
      else if strContains (lowerStr "whatever") "hard" ||
          strContains (lowerStr "whatever") "strict" then "hard"
      else "easy")) ∧
    "ai" ∈ LLM_KEYWORD_TAGS :=
  ⟨(C3_normalize_polarity_keywords
      [("polarity", JVal.jstr "EASY"),
       ("keywords", JVal.jlist [JVal.jstr "ml", JVal.jstr "bogus", JVal.jstr " AI ",
         JVal.jstr "ml"])] "whatever").1,
   (C3_normalize_polarity_keywords
      [("polarity", JVal.jstr "EASY"),
       ("keywords", JVal.jlist [JVal.jstr "ml", JVal.jstr "bogus", JVal.jstr " AI ",
         JVal.jstr "ml"])] "whatever").2.1 "ai" (by decide)⟩

end UICourseAI
